import Mathlib

/-!
Verification of the `command-validator.py` pre-execution guard.

The file shallowly embeds the Python program:
* a small regular-expression engine covering exactly the constructs the
  validator's patterns use (literals, character predicates, `.*`, `\s*`,
  `[rRf]+`, alternation, and the zero-width word-boundary assertion `\b`),
  with `re.search`-style unanchored matching;
* the rule table `VALIDATION_RULES` (parameterised by the `SHELL_ALIASES`
  environment string, as in the source);
* the first-match-wins engine `validate_command`;
* the protocol layer: `get_command` (tool/command validation and the
  project-root boundary check, with filesystem path resolution abstracted
  as a function from path strings to resolved component lists), `stop`,
  the decision constructor `decision`, and `mainRun` modelling `main`'s
  emitted documents and exit status;
* a JSON term model for the emitted decision documents.
-/

namespace CommandValidator

/-- Word characters as Python's `\b` sees them on ASCII input: `[A-Za-z0-9_]`. -/
def wordChar (c : Char) : Bool :=
  c.isAlphanum || c = '_'

/-- Characters matched by Python's `\s` (ASCII range). -/
def pySpace (c : Char) : Bool :=
  c = ' ' || c = '\t' || c = '\n' || c = '\r' || c = '\x0b' || c = '\x0c'

/-- Characters matched by `.` (any character except newline; no DOTALL). -/
def dotChar (c : Char) : Bool :=
  c != '\n'

/-- Regular expressions, restricted to the constructs the validator uses.
`starPred p` is `p*` for a single-character class `p` (the only starred
subpatterns in the source are `.*` and `\s*`); `wordB` is the zero-width
word-boundary assertion `\b`.  Python's grouping parentheses are semantically
transparent for `re.search` truthiness and are not represented. -/
inductive RE where
  | eps : RE
  | pred : (Char → Bool) → RE
  | seq : RE → RE → RE
  | alt : RE → RE → RE
  | starPred : (Char → Bool) → RE
  | wordB : RE

/-- States reachable from `(prev, s)` by consuming zero or more characters
satisfying `f` (the semantics of `p*` for a character class `p`).  Each state
records the last consumed character (for `\b`) and the remaining input. -/
def starStates (f : Char → Bool) : Option Char → List Char → List (Option Char × List Char)
  | p, [] => [(p, [])]
  | p, c :: rest => (p, c :: rest) :: (if f c then starStates f (some c) rest else [])

/-- Is there a word boundary between the previously consumed character `p`
(`none` at the start of the string) and the rest of the input `s`? -/
def wordBoundary (p : Option Char) (s : List Char) : Bool :=
  (match p with | none => false | some c => wordChar c)
    != (match s with | [] => false | c :: _ => wordChar c)

/-- All states `(lastChar, remaining)` reachable by matching `r` against a
prefix of `s`, where `p` is the character immediately before `s` (if any).
A nonempty result means `r` matches some prefix of `s` at this position. -/
def reMatch : RE → Option Char → List Char → List (Option Char × List Char)
  | .eps, p, s => [(p, s)]
  | .pred _, _, [] => []
  | .pred f, _, c :: rest => if f c then [(some c, rest)] else []
  | .seq r1 r2, p, s => (reMatch r1 p s).flatMap fun q => reMatch r2 q.1 q.2
  | .alt r1 r2, p, s => reMatch r1 p s ++ reMatch r2 p s
  | .starPred f, p, s => starStates f p s
  | .wordB, p, s => if wordBoundary p s then [(p, s)] else []

/-- Does `r` match starting at some position of the input, where `p` is the
character just before the current position?  Tries the current position and
every later one, including the end-of-string position. -/
def searchAux (r : RE) : Option Char → List Char → Bool
  | p, [] => !(reMatch r p []).isEmpty
  | p, c :: rest => !(reMatch r p (c :: rest)).isEmpty || searchAux r (some c) rest

/-- Truthiness of `re.search(r, s)`: the pattern matches somewhere in `s`. -/
def reSearch (r : RE) (s : String) : Bool :=
  searchAux r none s.data

/-- The regex matching a literal list of characters. -/
def litl : List Char → RE
  | [] => .eps
  | c :: cs => .seq (.pred fun d => d = c) (litl cs)

/-- The regex matching a literal string. -/
def lit (s : String) : RE :=
  litl s.data

/-- The regex `p+` for a character class `p`. -/
def plusPred (f : Char → Bool) : RE :=
  .seq (.pred f) (.starPred f)

/-- The inner object of a decision document. -/
structure HookSpecificOutput where
  hookEventName : String
  permissionDecision : String
  permissionDecisionReason : Option String
deriving DecidableEq, Repr

/-- A policy decision document, `{"hookSpecificOutput": {...}}`. -/
structure Decision where
  hookSpecificOutput : HookSpecificOutput
deriving DecidableEq, Repr

/-- Python truthiness of an optional string: `None` and `""` are falsy. -/
def pyTruthy : Option String → Bool
  | none => false
  | some s => !s.isEmpty

/-- The function `decision(decision, reason=None)` from the source: builds the
decision document; the reason key is added only when `reason` is truthy. -/
def decision (dec : String) (reason : Option String) : Decision :=
  { hookSpecificOutput :=
    { hookEventName := "PreToolUse"
      permissionDecision := dec
      permissionDecisionReason := if pyTruthy reason then reason else none } }

/-- Python's `str.split(",")` on a character list: splits at every comma and
yields `[[]]` on empty input, exactly as `"".split(",") == [""]`. -/
def splitComma : List Char → List (List Char)
  | [] => [[]]
  | c :: rest =>
    let r := splitComma rest
    if c = ',' then [] :: r else (c :: r.headD []) :: r.tail

/-- The regex fragment `rf"(\b{a}\b)"` built for one alias name `a`. -/
def aliasWordRE (a : List Char) : RE :=
  .seq .wordB (.seq (litl a) .wordB)

/-- The `SHELL_ALIASES` fragment: the `|`-join of `(\b{a}\b)` over the comma-separated
alias environment string.  With the empty environment string this is the
single degenerate fragment `(\b\b)`. -/
def shellAliasesRE (env : String) : RE :=
  match (splitComma env.data).map aliasWordRE with
  | [] => .eps
  | r :: rs => rs.foldl .alt r

/-- Rule 1 pattern: `\bgrep\b`. -/
def grepPattern : RE :=
  .seq .wordB (.seq (lit "grep") .wordB)

/-- Rule 2 pattern: `\b(find|bfs)\b`. -/
def findBfsPattern : RE :=
  .seq .wordB (.seq (.alt (lit "find") (lit "bfs")) .wordB)

/-- Rule 3 pattern: `\bsudo\b`. -/
def sudoPattern : RE :=
  .seq .wordB (.seq (lit "sudo") .wordB)

/-- Rule 4 pattern: `\brm.*--no-preserve-root`. -/
def rmNoPreserveRootPattern : RE :=
  .seq .wordB (.seq (lit "rm") (.seq (.starPred dotChar) (lit "--no-preserve-root")))

/-- Rule 5 pattern: `\brm\s*(-[rRf]+)|(--recursive)|(--force)` — a top-level
alternation of three branches; only the first requires an `rm` word. -/
def rmRecursiveForcePattern : RE :=
  .alt
    (.seq .wordB (.seq (lit "rm")
      (.seq (.starPred pySpace)
        (.seq (.pred fun c => c = '-') (plusPred fun c => c = 'r' || c = 'R' || c = 'f')))))
    (.alt (lit "--recursive") (lit "--force"))

/-- Rule 6 pattern: `r"(\balias\b)|" + SHELL_ALIASES`. -/
def aliasRulePattern (env : String) : RE :=
  .alt (.seq .wordB (.seq (lit "alias") .wordB)) (shellAliasesRE env)

/-- The table `VALIDATION_RULES`, parameterised by the `SHELL_ALIASES`
environment string (the source reads it at module load). -/
def VALIDATION_RULES (env : String) : List (RE × Decision) :=
  [ (grepPattern,
      decision "deny" (some "Use 'rg' (ripgrep) instead of 'grep' for better performance and features")),
    (findBfsPattern,
      decision "deny" (some "Use the Search or Glob tool instead of 'find'.")),
    (sudoPattern, decision "ask" none),
    (rmNoPreserveRootPattern, decision "deny" none),
    (rmRecursiveForcePattern, decision "ask" none),
    (aliasRulePattern env,
      decision "deny" (some "Don't use aliases, use the command directly")) ]

/-- The loop body of `validate_command`: scan an ordered rule list, return
the first rule whose pattern `re.search`-matches the command. -/
def findDecision : List (RE × Decision) → String → Option Decision
  | [], _ => none
  | (pat, d) :: rest, cmd => if reSearch pat cmd then some d else findDecision rest cmd

/-- The function `validate_command(command)` from the source, with the ambient
`SHELL_ALIASES` environment made an explicit parameter. -/
def validate_command (env : String) (command : String) : Option Decision :=
  findDecision (VALIDATION_RULES env) command

/-- The fatal stop document `{"continue": False, "stopReason": reason}`.
The field `cont` models the JSON key `"continue"` (a Lean keyword). -/
structure StopOutput where
  cont : Bool
  stopReason : String
deriving DecidableEq, Repr

/-- The function `stop(reason)`: the document it prints before exiting with
status 1. -/
def stop (reason : String) : StopOutput :=
  { cont := false, stopReason := reason }

/-- The decoded input document (§6 schema): `tool_name` and the command are
optional because the source reads them with `.get`; `cwd` and
`hook_event_name` are accessed with `[]` and are required on the well-formed
inputs the claims quantify over.  `tool_input_command` is
`input.get("tool_input", {}).get("command")`. -/
structure Input where
  tool_name : Option String
  tool_input_command : Option String
  cwd : String
  hook_event_name : String

/-- How an f-string renders an optional string (`None` prints as `None`). -/
def pyShowOpt : Option String → String
  | none => "None"
  | some s => s

/-- A resolved absolute path, as its list of components. -/
abbrev RPath := List String

/-- Rendering `str()` of a resolved absolute path. -/
def pathToString (p : RPath) : String :=
  "/" ++ String.intercalate "/" p

/-- The check `cwd.is_relative_to(project_root)` on resolved absolute paths:
the root's components are a prefix of the cwd's components. -/
def isRelativeTo (cwd root : RPath) : Bool :=
  root.isPrefixOf cwd

/-- The function `get_command(input)`.  Filesystem path resolution (`Path(...).resolve()`)
is abstracted as the function `resolve` from path strings to resolved
component lists; `claude_project_dir` is the optional `CLAUDE_PROJECT_DIR`
environment value and `process_cwd` the process's own current directory
(`Path.cwd()`), rendered as a string. -/
def get_command (resolve : String → RPath) (claude_project_dir : Option String)
    (process_cwd : String) (input : Input) : Except StopOutput String :=
  let tool_name := input.tool_name
  let command := input.tool_input_command
  if tool_name != some "Bash" || !pyTruthy command then
    .error (stop ("Command validator hook is configured incorrectly.\n            Hook Event: "
      ++ input.hook_event_name ++ "\n            Tool name: " ++ pyShowOpt tool_name
      ++ "\n        "))
  else
    let cwd := resolve input.cwd
    let project_root := resolve (claude_project_dir.getD process_cwd)
    if !isRelativeTo cwd project_root then
      .error (stop ("Current working directory " ++ pathToString cwd
        ++ " is outside of project root " ++ pathToString project_root))
    else
      .ok (command.getD "")

/-- A document written to standard output. -/
inductive OutDoc where
  | stopDoc : StopOutput → OutDoc
  | decisionDoc : Decision → OutDoc
deriving DecidableEq, Repr

/-- The function `main()` on a decoded input: the documents printed to
standard output, in order, and the process exit status. -/
def mainRun (env : String) (resolve : String → RPath) (claude_project_dir : Option String)
    (process_cwd : String) (input : Input) : List OutDoc × Nat :=
  match get_command resolve claude_project_dir process_cwd input with
  | .error sdoc => ([OutDoc.stopDoc sdoc], 1)
  | .ok command =>
    match validate_command env command with
    | some d => ([OutDoc.decisionDoc d], 0)
    | none => ([], 0)

/-- JSON terms, with object fields in emission order (Python dicts preserve
insertion order under `json.dumps`). -/
inductive Json where
  | str : String → Json
  | bool : Bool → Json
  | obj : List (String × Json) → Json

/-- The JSON emitted for the inner object of a decision document. -/
def encodeHookSpecificOutput (o : HookSpecificOutput) : Json :=
  .obj ([("hookEventName", .str o.hookEventName),
         ("permissionDecision", .str o.permissionDecision)] ++
    (match o.permissionDecisionReason with
     | none => []
     | some r => [("permissionDecisionReason", .str r)]))

/-- The JSON emitted by `print_decision` for a decision document. -/
def encodeDecision (d : Decision) : Json :=
  .obj [("hookSpecificOutput", encodeHookSpecificOutput d.hookSpecificOutput)]

end CommandValidator

namespace CommandValidator

theorem isEmpty_append' (xs ys : List (Option Char × List Char)) :
    (xs ++ ys).isEmpty = (xs.isEmpty && ys.isEmpty) := by
  cases xs <;> simp [List.isEmpty]

theorem searchAux_alt (r1 r2 : RE) : ∀ (p : Option Char) (s : List Char),
    searchAux (.alt r1 r2) p s = (searchAux r1 p s || searchAux r2 p s) := by
  intro p s
  induction s generalizing p with
  | nil =>
    simp [searchAux, reMatch, isEmpty_append']
  | cons c rest ih =>
    simp only [searchAux, reMatch, isEmpty_append', ih, Bool.not_and]
    cases (reMatch r1 p (c :: rest)).isEmpty <;>
      cases (reMatch r2 p (c :: rest)).isEmpty <;>
      cases searchAux r1 (some c) rest <;>
      cases searchAux r2 (some c) rest <;> rfl

theorem reMatch_litl_ne_nil (n : List Char) : ∀ (p : Option Char) (s : List Char),
    reMatch (litl n) p s ≠ [] ↔ n <+: s := by
  induction n with
  | nil => intro p s; simp [litl, reMatch]
  | cons c cs ih =>
    intro p s
    cases s with
    | nil => simp [litl, reMatch]
    | cons d rest =>
      by_cases h : d = c
      · subst h
        simp [litl, reMatch, List.cons_prefix_cons, ih]
      · simp [litl, reMatch, List.cons_prefix_cons, h]
        exact fun hcd => absurd hcd.symm h

theorem searchAux_litl (n : List Char) : ∀ (p : Option Char) (s : List Char),
    searchAux (litl n) p s = true ↔ n <:+: s := by
  intro p s
  induction s generalizing p with
  | nil =>
    have hiff : (reMatch (litl n) p []).isEmpty = false ↔ n <+: [] := by
      rw [← reMatch_litl_ne_nil n p []]
      simp [List.isEmpty_iff]
    simp only [searchAux, Bool.not_eq_true', hiff, List.infix_nil, List.prefix_nil]
  | cons c rest ih =>
    have hiff : (reMatch (litl n) p (c :: rest)).isEmpty = false ↔ n <+: c :: rest := by
      rw [← reMatch_litl_ne_nil n p (c :: rest)]
      simp [List.isEmpty_iff]
    simp only [searchAux, Bool.or_eq_true, Bool.not_eq_true', hiff, ih, List.infix_cons_iff]

theorem reSearch_lit (t : String) (s : String) :
    reSearch (lit t) s = true ↔ t.data <:+: s.data := by
  rw [reSearch, lit, searchAux_litl]

theorem findDecision_eq_none_iff (rules : List (RE × Decision)) (cmd : String) :
    findDecision rules cmd = none ↔ ∀ q ∈ rules, reSearch q.1 cmd = false := by
  induction rules with
  | nil => simp [findDecision]
  | cons r rest ih =>
    obtain ⟨pat, d⟩ := r
    simp only [findDecision, List.mem_cons, forall_eq_or_imp]
    by_cases h : reSearch pat cmd
    · simp [h]
    · simp only [Bool.not_eq_true] at h
      simp [h, ih]

theorem findDecision_append_first (cmd : String) :
    ∀ (pre post : List (RE × Decision)) (r : RE × Decision),
      (∀ q ∈ pre, reSearch q.1 cmd = false) → reSearch r.1 cmd = true →
      findDecision (pre ++ r :: post) cmd = some r.2 := by
  intro pre
  induction pre with
  | nil =>
    intro post r _ hr
    obtain ⟨pat, d⟩ := r
    simp [findDecision, hr]
  | cons q pre ih =>
    intro post r hpre hr
    obtain ⟨qp, qd⟩ := q
    have hq : reSearch qp cmd = false := hpre (qp, qd) (List.mem_cons_self _ _)
    simp only [List.cons_append, findDecision, hq]
    simp only [Bool.false_eq_true, if_false]
    exact ih post r (fun x hx => hpre x (List.mem_cons_of_mem _ hx)) hr

theorem findDecision_mem (rules : List (RE × Decision)) (cmd : String) (d : Decision) :
    findDecision rules cmd = some d → d ∈ rules.map Prod.snd := by
  induction rules with
  | nil => simp [findDecision]
  | cons r rest ih =>
    obtain ⟨pat, dec⟩ := r
    by_cases h : reSearch pat cmd
    · simp only [findDecision, h, if_true, Option.some.injEq]
      intro h'
      simp [h']
    · simp only [Bool.not_eq_true] at h
      simp only [findDecision, h, Bool.false_eq_true, if_false]
      intro h'
      simp [ih h']

/-- C1: for every command string and every ordered rule list, the engine
scans the rules in order, returns the first rule whose pattern searches
successfully anywhere in the command, and returns `none` when no rule's
pattern matches. -/
theorem validate_first_match_wins (rules : List (RE × Decision)) (cmd : String) :
    (findDecision rules cmd = none ↔ ∀ q ∈ rules, reSearch q.1 cmd = false) ∧
    (∀ (pre post : List (RE × Decision)) (r : RE × Decision),
      rules = pre ++ r :: post →
      (∀ q ∈ pre, reSearch q.1 cmd = false) → reSearch r.1 cmd = true →
      findDecision rules cmd = some r.2) := by
  refine ⟨findDecision_eq_none_iff rules cmd, ?_⟩
  intro pre post r hsplit hpre hr
  rw [hsplit]
  exact findDecision_append_first cmd pre post r hpre hr

theorem validate_first_match_wins_witness :
    findDecision (VALIDATION_RULES "") "sudo apt update" = some (decision "ask" none) :=
  (validate_first_match_wins (VALIDATION_RULES "") "sudo apt update").2
    ((VALIDATION_RULES "").take 2) ((VALIDATION_RULES "").drop 3)
    (sudoPattern, decision "ask" none) rfl (by decide) (by decide)

/-- C2 (code bug evaluation): with `SHELL_ALIASES` unset the alias rule's
pattern degenerates to `(\balias\b)|(\b\b)`, whose second branch matches at
any word boundary; `ls -la` is therefore denied by the engine and the
process emits a decision document, instead of staying silent. -/
theorem default_config_denies_ls_la :
    validate_command "" "ls -la" =
      some (decision "deny" (some "Don't use aliases, use the command directly")) ∧
    reSearch (aliasRulePattern "") "ls -la" = true ∧
    mainRun "" (fun _ => []) none "/"
      { tool_name := some "Bash", tool_input_command := some "ls -la", cwd := "/",
        hook_event_name := "PreToolUse" } =
      ([OutDoc.decisionDoc (decision "deny" (some "Don't use aliases, use the command directly"))],
        0) := by
  refine ⟨by decide, by decide, ?_⟩
  decide

/-- C3 counterexample: `sudo rm --no-preserve-root /` matches the
unconditional root-destructive deletion pattern, yet the engine returns the
`ask` decision of the earlier `sudo` rule, not a deny. -/
theorem rm_no_preserve_root_preempted_by_sudo :
    reSearch rmNoPreserveRootPattern "sudo rm --no-preserve-root /" = true ∧
    validate_command "" "sudo rm --no-preserve-root /" = some (decision "ask" none) ∧
    (decision "ask" none).hookSpecificOutput.permissionDecision ≠ "deny" := by
  refine ⟨by decide, by decide, by decide⟩

/-- C3 (amended): a command matching `\brm.*--no-preserve-root` and none of
the earlier rules (grep, find/bfs, sudo) is denied, even though it may also
match the weaker recursive/forced-deletion ask-rule listed later. -/
theorem rm_no_preserve_root_denies (env cmd : String)
    (h1 : reSearch grepPattern cmd = false)
    (h2 : reSearch findBfsPattern cmd = false)
    (h3 : reSearch sudoPattern cmd = false)
    (h4 : reSearch rmNoPreserveRootPattern cmd = true) :
    validate_command env cmd = some (decision "deny" none) := by
  have hsplit : VALIDATION_RULES env =
      [(grepPattern,
        decision "deny"
          (some "Use 'rg' (ripgrep) instead of 'grep' for better performance and features")),
       (findBfsPattern, decision "deny" (some "Use the Search or Glob tool instead of 'find'.")),
       (sudoPattern, decision "ask" none)] ++
      ((rmNoPreserveRootPattern, decision "deny" none) ::
       [(rmRecursiveForcePattern, decision "ask" none),
        (aliasRulePattern env,
          decision "deny" (some "Don't use aliases, use the command directly"))]) := rfl
  rw [validate_command, hsplit]
  refine findDecision_append_first cmd _ _ _ ?_ h4
  intro q hq
  simp only [List.mem_cons, List.not_mem_nil, or_false] at hq
  rcases hq with rfl | rfl | rfl
  · exact h1
  · exact h2
  · exact h3

theorem rm_no_preserve_root_denies_witness :
    validate_command "" "rm --no-preserve-root /" = some (decision "deny" none) :=
  rm_no_preserve_root_denies "" "rm --no-preserve-root /"
    (by decide) (by decide) (by decide) (by decide)

/-- C4: a command containing `sudo` as a whole word, and not matching the
two deny rules ordered earlier (grep and find/bfs), gets the `ask`
decision. -/
theorem sudo_asks (env cmd : String)
    (h1 : reSearch grepPattern cmd = false)
    (h2 : reSearch findBfsPattern cmd = false)
    (h3 : reSearch sudoPattern cmd = true) :
    validate_command env cmd = some (decision "ask" none) := by
  have hsplit : VALIDATION_RULES env =
      [(grepPattern,
        decision "deny"
          (some "Use 'rg' (ripgrep) instead of 'grep' for better performance and features")),
       (findBfsPattern, decision "deny" (some "Use the Search or Glob tool instead of 'find'."))] ++
      ((sudoPattern, decision "ask" none) ::
       [(rmNoPreserveRootPattern, decision "deny" none),
        (rmRecursiveForcePattern, decision "ask" none),
        (aliasRulePattern env,
          decision "deny" (some "Don't use aliases, use the command directly"))]) := rfl
  rw [validate_command, hsplit]
  refine findDecision_append_first cmd _ _ _ ?_ h3
  intro q hq
  simp only [List.mem_cons, List.not_mem_nil, or_false] at hq
  rcases hq with rfl | rfl
  · exact h1
  · exact h2

theorem sudo_asks_witness :
    validate_command "" "sudo apt update" = some (decision "ask" none) :=
  sudo_asks "" "sudo apt update" (by decide) (by decide) (by decide)

theorem rule5_first_match (env cmd : String)
    (h1 : reSearch grepPattern cmd = false)
    (h2 : reSearch findBfsPattern cmd = false)
    (h3 : reSearch sudoPattern cmd = false)
    (h4 : reSearch rmNoPreserveRootPattern cmd = false)
    (h5 : reSearch rmRecursiveForcePattern cmd = true) :
    validate_command env cmd = some (decision "ask" none) := by
  have hsplit : VALIDATION_RULES env =
      [(grepPattern,
        decision "deny"
          (some "Use 'rg' (ripgrep) instead of 'grep' for better performance and features")),
       (findBfsPattern, decision "deny" (some "Use the Search or Glob tool instead of 'find'.")),
       (sudoPattern, decision "ask" none),
       (rmNoPreserveRootPattern, decision "deny" none)] ++
      ((rmRecursiveForcePattern, decision "ask" none) ::
       [(aliasRulePattern env,
          decision "deny" (some "Don't use aliases, use the command directly"))]) := rfl
  rw [validate_command, hsplit]
  refine findDecision_append_first cmd _ _ _ ?_ h5
  intro q hq
  simp only [List.mem_cons, List.not_mem_nil, or_false] at hq
  rcases hq with rfl | rfl | rfl | rfl
  · exact h1
  · exact h2
  · exact h3
  · exact h4

/-- C5: a command matching the recursive/forced-deletion pattern and none of
the four rules ordered before it gets the `ask` decision. -/
theorem rm_recursive_asks (env cmd : String)
    (h1 : reSearch grepPattern cmd = false)
    (h2 : reSearch findBfsPattern cmd = false)
    (h3 : reSearch sudoPattern cmd = false)
    (h4 : reSearch rmNoPreserveRootPattern cmd = false)
    (h5 : reSearch rmRecursiveForcePattern cmd = true) :
    validate_command env cmd = some (decision "ask" none) :=
  rule5_first_match env cmd h1 h2 h3 h4 h5

theorem rm_recursive_asks_witness :
    validate_command "" "rm -rf build/" = some (decision "ask" none) :=
  rm_recursive_asks "" "rm -rf build/" (by decide) (by decide) (by decide) (by decide) (by decide)

/-- C6 counterexample: with the deny-list `["ll","la"]`, the command
`sudo ll` contains `ll` as a whole word yet is not denied — the earlier
`sudo` rule fires first and returns `ask`. -/
theorem alias_ll_preempted_by_sudo :
    reSearch (aliasWordRE "ll".data) "sudo ll" = true ∧
    validate_command "ll,la" "sudo ll" = some (decision "ask" none) ∧
    (decision "ask" none).hookSpecificOutput.permissionDecision ≠ "deny" := by
  refine ⟨by decide, by decide, by decide⟩

/-- C6 (amended): with the deny-list `["ll","la"]`, a command containing
`ll` as a whole word and matching none of the five earlier rules is denied
by the alias rule; and `calling`, which contains `ll` only inside a longer
word and matches no other rule, is not denied. -/
theorem alias_deny_list_whole_word :
    (∀ cmd : String,
      reSearch grepPattern cmd = false →
      reSearch findBfsPattern cmd = false →
      reSearch sudoPattern cmd = false →
      reSearch rmNoPreserveRootPattern cmd = false →
      reSearch rmRecursiveForcePattern cmd = false →
      reSearch (aliasWordRE "ll".data) cmd = true →
      validate_command "ll,la" cmd =
        some (decision "deny" (some "Don't use aliases, use the command directly"))) ∧
    validate_command "ll,la" "calling" = none := by
  refine ⟨?_, by decide⟩
  intro cmd h1 h2 h3 h4 h5 hll
  have hshape : aliasRulePattern "ll,la" =
      .alt (.seq .wordB (.seq (lit "alias") .wordB))
        (.alt (aliasWordRE "ll".data) (aliasWordRE "la".data)) := rfl
  have h6 : reSearch (aliasRulePattern "ll,la") cmd = true := by
    simp only [reSearch] at hll ⊢
    rw [hshape, searchAux_alt, searchAux_alt, hll]
    simp
  have hsplit : VALIDATION_RULES "ll,la" =
      [(grepPattern,
        decision "deny"
          (some "Use 'rg' (ripgrep) instead of 'grep' for better performance and features")),
       (findBfsPattern, decision "deny" (some "Use the Search or Glob tool instead of 'find'.")),
       (sudoPattern, decision "ask" none),
       (rmNoPreserveRootPattern, decision "deny" none),
       (rmRecursiveForcePattern, decision "ask" none)] ++
      ((aliasRulePattern "ll,la",
        decision "deny" (some "Don't use aliases, use the command directly")) :: []) := rfl
  rw [validate_command, hsplit]
  refine findDecision_append_first cmd _ _ _ ?_ h6
  intro q hq
  simp only [List.mem_cons, List.not_mem_nil, or_false] at hq
  rcases hq with rfl | rfl | rfl | rfl | rfl
  · exact h1
  · exact h2
  · exact h3
  · exact h4
  · exact h5

theorem alias_deny_list_whole_word_witness :
    validate_command "ll,la" "ll" =
      some (decision "deny" (some "Don't use aliases, use the command directly")) :=
  alias_deny_list_whole_word.1 "ll"
    (by decide) (by decide) (by decide) (by decide) (by decide) (by decide)

/-- C10: a command containing the substring `--recursive` or `--force`
anywhere — no `rm` word required — and matching none of the four earlier
rules gets the `ask` decision, because the recursive/forced-deletion
pattern is a top-level alternation whose last two branches are bare
literals. -/
theorem recursive_force_without_rm_asks (env cmd : String)
    (h1 : reSearch grepPattern cmd = false)
    (h2 : reSearch findBfsPattern cmd = false)
    (h3 : reSearch sudoPattern cmd = false)
    (h4 : reSearch rmNoPreserveRootPattern cmd = false)
    (h5 : "--recursive".data <:+: cmd.data ∨ "--force".data <:+: cmd.data) :
    validate_command env cmd = some (decision "ask" none) := by
  have h5' : reSearch rmRecursiveForcePattern cmd = true := by
    rw [reSearch, rmRecursiveForcePattern, searchAux_alt, searchAux_alt]
    simp only [lit]
    rcases h5 with h | h
    · rw [(searchAux_litl _ none cmd.data).mpr h]
      simp
    · rw [(searchAux_litl _ none cmd.data).mpr h]
      simp
  exact rule5_first_match env cmd h1 h2 h3 h4 h5'

theorem recursive_force_without_rm_asks_witness :
    validate_command "" "git push --force" = some (decision "ask" none) :=
  recursive_force_without_rm_asks "" "git push --force"
    (by decide) (by decide) (by decide) (by decide) (Or.inr (by decide))

/-- C7: on a well-formed input whose tool name is not `Bash`, or whose
command field is missing or empty, the process emits exactly one fatal stop
document (`continue = false` with a string reason) and exits with status 1;
no decision document is emitted. -/
theorem wrong_tool_stops (env : String) (resolve : String → RPath)
    (cpd : Option String) (pcwd : String) (input : Input)
    (h : input.tool_name ≠ some "Bash" ∨ input.tool_input_command = none ∨
      input.tool_input_command = some "") :
    mainRun env resolve cpd pcwd input =
      ([OutDoc.stopDoc (stop
        ("Command validator hook is configured incorrectly.\n            Hook Event: "
          ++ input.hook_event_name ++ "\n            Tool name: " ++ pyShowOpt input.tool_name
          ++ "\n        "))], 1) := by
  have hc : (input.tool_name != some "Bash" || !pyTruthy input.tool_input_command) = true := by
    rcases h with h | h | h
    · simp [bne_iff_ne, h]
    · simp [h, pyTruthy]
    · simp [h, pyTruthy]
      exact Or.inr rfl
  simp [mainRun, get_command, hc]

theorem wrong_tool_stops_witness :
    mainRun "" (fun _ => []) none "/"
      { tool_name := some "Edit", tool_input_command := some "ls", cwd := "/",
        hook_event_name := "PreToolUse" } =
      ([OutDoc.stopDoc (stop
        ("Command validator hook is configured incorrectly.\n            Hook Event: PreToolUse\n            Tool name: Edit\n        "))],
        1) :=
  wrong_tool_stops "" (fun _ => []) none "/"
    { tool_name := some "Edit", tool_input_command := some "ls", cwd := "/",
      hook_event_name := "PreToolUse" }
    (Or.inl (by decide))

/-- C8: on a well-formed input with tool `Bash` and a non-empty command,
whose resolved working directory is not equal to or below the resolved
project root, the process emits a fatal stop document whose reason names
both paths and exits with status 1, for every rule configuration alike. -/
theorem cwd_outside_root_stops (env : String) (resolve : String → RPath)
    (cpd : Option String) (pcwd : String) (input : Input) (c : String)
    (htool : input.tool_name = some "Bash")
    (hcmd : input.tool_input_command = some c)
    (hne : c ≠ "")
    (hout : isRelativeTo (resolve input.cwd) (resolve (cpd.getD pcwd)) = false) :
    mainRun env resolve cpd pcwd input =
      ([OutDoc.stopDoc (stop ("Current working directory " ++ pathToString (resolve input.cwd)
        ++ " is outside of project root " ++ pathToString (resolve (cpd.getD pcwd))))], 1) := by
  have hE : c.isEmpty = false := by
    cases hE : c.isEmpty
    · rfl
    · exact absurd ((String.isEmpty_iff c).mp hE) hne
  have hc1 : (input.tool_name != some "Bash" || !pyTruthy input.tool_input_command) = false := by
    rw [htool, hcmd]
    simp [pyTruthy, hE]
  simp [mainRun, get_command, hc1, hout]

theorem cwd_outside_root_stops_witness :
    mainRun "" (fun s => [s]) (some "proj") "/" 
      { tool_name := some "Bash", tool_input_command := some "ls", cwd := "elsewhere",
        hook_event_name := "PreToolUse" } =
      ([OutDoc.stopDoc (stop
        "Current working directory /elsewhere is outside of project root /proj")], 1) :=
  cwd_outside_root_stops "" (fun s => [s]) (some "proj") "/"
    { tool_name := some "Bash", tool_input_command := some "ls", cwd := "elsewhere",
      hook_event_name := "PreToolUse" }
    "ls" rfl rfl (by decide) (by decide)

/-- C9: every decision the engine produces comes from the `decision`
constructor with a `deny` or `ask` verdict, and its emitted JSON document
has exactly one top-level key `hookSpecificOutput` whose object carries
`hookEventName = "PreToolUse"`, the verdict, and a
`permissionDecisionReason` field exactly when a (truthy) reason was
configured for the matching rule — no extraneous keys. -/
theorem decision_document_schema (env cmd : String) (d : Decision)
    (h : validate_command env cmd = some d) :
    ∃ (p : String) (ropt : Option String), d = decision p ropt ∧ (p = "deny" ∨ p = "ask") ∧
      ((pyTruthy ropt = false ∧
        encodeDecision d = Json.obj [("hookSpecificOutput", Json.obj
          [("hookEventName", Json.str "PreToolUse"),
           ("permissionDecision", Json.str p)])]) ∨
       (∃ r : String, ropt = some r ∧ pyTruthy ropt = true ∧
        encodeDecision d = Json.obj [("hookSpecificOutput", Json.obj
          [("hookEventName", Json.str "PreToolUse"),
           ("permissionDecision", Json.str p),
           ("permissionDecisionReason", Json.str r)])])) := by
  have hmem := findDecision_mem (VALIDATION_RULES env) cmd d h
  have hsnd : (VALIDATION_RULES env).map Prod.snd =
      [decision "deny"
        (some "Use 'rg' (ripgrep) instead of 'grep' for better performance and features"),
       decision "deny" (some "Use the Search or Glob tool instead of 'find'."),
       decision "ask" none,
       decision "deny" none,
       decision "ask" none,
       decision "deny" (some "Don't use aliases, use the command directly")] := rfl
  rw [hsnd] at hmem
  simp only [List.mem_cons, List.not_mem_nil, or_false] at hmem
  rcases hmem with rfl | rfl | rfl | rfl | rfl | rfl
  · exact ⟨"deny",
      some "Use 'rg' (ripgrep) instead of 'grep' for better performance and features",
      rfl, Or.inl rfl, Or.inr ⟨_, rfl, rfl, rfl⟩⟩
  · exact ⟨"deny", some "Use the Search or Glob tool instead of 'find'.",
      rfl, Or.inl rfl, Or.inr ⟨_, rfl, rfl, rfl⟩⟩
  · exact ⟨"ask", none, rfl, Or.inr rfl, Or.inl ⟨rfl, rfl⟩⟩
  · exact ⟨"deny", none, rfl, Or.inl rfl, Or.inl ⟨rfl, rfl⟩⟩
  · exact ⟨"ask", none, rfl, Or.inr rfl, Or.inl ⟨rfl, rfl⟩⟩
  · exact ⟨"deny", some "Don't use aliases, use the command directly",
      rfl, Or.inl rfl, Or.inr ⟨_, rfl, rfl, rfl⟩⟩

theorem decision_document_schema_witness :
    ∃ (p : String) (ropt : Option String),
      decision "ask" none = decision p ropt ∧ (p = "deny" ∨ p = "ask") ∧
      ((pyTruthy ropt = false ∧
        encodeDecision (decision "ask" none) = Json.obj [("hookSpecificOutput", Json.obj
          [("hookEventName", Json.str "PreToolUse"),
           ("permissionDecision", Json.str p)])]) ∨
       (∃ r : String, ropt = some r ∧ pyTruthy ropt = true ∧
        encodeDecision (decision "ask" none) = Json.obj [("hookSpecificOutput", Json.obj
          [("hookEventName", Json.str "PreToolUse"),
           ("permissionDecision", Json.str p),
           ("permissionDecisionReason", Json.str r)])])) :=
  decision_document_schema "" "sudo make install" (decision "ask" none) (by decide)

end CommandValidator
